import Mathlib

/-!
Shallow embedding of the browser-side playlist download client:
src/public/app.js (sequential request/response variant) and
src/static/app.js (push-stream / server-sent-events variant).

JS `Set` objects are modelled as `Finset String` (their extensional
content), JS arrays as lists, and the DOM surface that the handlers
mutate (button labels and disabled flags, the status line, the overall
progress fill, per-card classes, the zip section) as explicit record
fields.  Network interactions are modelled by outcome parameters:
a per-request outcome for the sequential loop, a delivered event list
for the push stream, and an extraction outcome for `extractPlaylist`.
-/

/-- Models one entry of the `videos` array returned by extraction.  The
optional fields (`thumbnail`, `duration_str`, `uploader`) are plain
strings with the empty string playing the role of a JS falsy value,
matching how the render template tests them for truthiness. -/
structure Video where
  video_id : String
  title : String
  url : String
  thumbnail : String
  duration_str : String
  uploader : String
deriving DecidableEq, Repr

/-- List of identifiers of a video list, `videos.map((v) => v.video_id)`. -/
def videoIds (vids : List Video) : List String :=
  vids.map (fun v => v.video_id)

/-- Escaping of one text character performed by the browser when
`escapeHtml` round-trips text through `div.textContent` followed by
`div.innerHTML`: the HTML fragment serialization of a text node replaces
each ampersand, less-than and greater-than by its entity. -/
def escapeHtmlChar (c : Char) : List Char :=
  if c = '&' then ("&amp;").data
  else if c = '<' then ("&lt;").data
  else if c = '>' then ("&gt;").data
  else [c]

/-- Models `function escapeHtml(text)` of both variants: the DOM
round-trip `div.textContent = text; return div.innerHTML`. -/
def escapeHtml (text : String) : String :=
  String.mk (text.data.flatMap escapeHtmlChar)

/-- Models `String.prototype.replace` with a global single-character
pattern and a replacement containing no special dollar pattern: every
occurrence of the character is replaced by the string. -/
def jsReplaceAllChar (c : Char) (rep : String) (s : String) : String :=
  String.mk (s.data.flatMap (fun x => if x = c then rep.data else [x]))

/-- Double-quote character. -/
def quoteChar : Char := Char.ofNat 34

/-- Apostrophe character. -/
def aposChar : Char := Char.ofNat 39

/-- Models `function escapeAttr(text)` of both variants: five global
replaces applied in source order (ampersand, double quote, apostrophe,
less-than, greater-than). -/
def escapeAttr (text : String) : String :=
  jsReplaceAllChar '>' ("&gt;")
    (jsReplaceAllChar '<' ("&lt;")
      (jsReplaceAllChar aposChar ("&#39;")
        (jsReplaceAllChar quoteChar ("&quot;")
          (jsReplaceAllChar '&' ("&amp;") text))))

/-- Models `function truncate(str, maxLen)` of both variants. -/
def truncate (str : String) (maxLen : Nat) : String :=
  if str = "" then ""
  else if str.length > maxLen then (str.take maxLen) ++ "..."
  else str

/-- Thumbnail fallback of `renderVideoGrid`:
`video.thumbnail || "https://i.ytimg.com/vi/" + id + "/hqdefault.jpg"`. -/
def thumbUrlOf (v : Video) : String :=
  if v.thumbnail = "" then
    "https://i.ytimg.com/vi/" ++ v.video_id ++ "/hqdefault.jpg"
  else v.thumbnail

/-- Fixed template text of `card.innerHTML` before the thumbnail url. -/
def cardTpl1 : String :=
  "\n      <div class=\x22thumbnail-wrap\x22>\n        <img class=\x22thumbnail\x22\n             src=\x22"

/-- Fixed template text between the thumbnail url and the alt text. -/
def cardTpl2 : String :=
  "\x22\n             alt=\x22"

/-- Fixed template text between the alt text and the duration badge. -/
def cardTpl3 : String :=
  "\x22\n             loading=\x22lazy\x22\n             onerror=\x22this.style.display=\x27none\x27\x22>\n        "

/-- Fixed template text between the duration badge and the title. -/
def cardTpl4 : String :=
  "\n        <div class=\x22check-circle\x22>&#10003;</div>\n        <div class=\x22status-icon\x22></div>\n      </div>\n      <div class=\x22info\x22>\n        <div class=\x22title\x22>"

/-- Fixed template text between the title and the uploader line. -/
def cardTpl5 : String :=
  "</div>\n        <div class=\x22meta\x22>"

/-- Fixed template text after the uploader line. -/
def cardTpl6 : String :=
  "</div>\n      </div>\n      <div class=\x22progress-overlay\x22><div class=\x22fill\x22></div></div>\n      <div class=\x22error-msg\x22></div>\n    "

/-- Duration badge fragment of the card template:
rendered only when `video.duration_str` is truthy. -/
def durationBadge (v : Video) : String :=
  if v.duration_str = "" then ""
  else "<span class=\x22duration-badge\x22>" ++ escapeHtml v.duration_str ++ "</span>"

/-- Uploader line of the card template:
`video.uploader ? escapeHtml(video.uploader) : ""`. -/
def metaHtml (v : Video) : String :=
  if v.uploader = "" then "" else escapeHtml v.uploader

/-- Models the `card.innerHTML` template string built by
`renderVideoGrid` for one video (identical in both variants). -/
def cardInnerHTML (v : Video) : String :=
  cardTpl1 ++ escapeAttr (thumbUrlOf v) ++ cardTpl2 ++ escapeAttr v.title ++
    cardTpl3 ++ durationBadge v ++ cardTpl4 ++ escapeHtml v.title ++
    cardTpl5 ++ metaHtml v ++ cardTpl6

/-- Summary status line written after a run finishes, identical in the
sequential loop epilogue and the `all_complete` event branch. -/
def runSummary (completedCount errorCount : Nat) : String :=
  if errorCount = 0 then
    "All " ++ toString completedCount ++ " downloads complete!"
  else if completedCount = 0 then
    "All " ++ toString errorCount ++ " downloads failed"
  else
    toString completedCount ++ " downloaded, " ++ toString errorCount ++ " failed"

namespace PublicApp

/-- Module-level mutable state of src/public/app.js. -/
structure AppState where
  videos : List Video
  selectedIds : Finset String
  downloadedIds : Finset String
  errorIds : Finset String
  allSelected : Bool
  selectedFormat : String
  isDownloading : Bool
deriving DecidableEq

/-- Initial module state at page load. -/
def pageInit : AppState :=
  { videos := [], selectedIds := ∅, downloadedIds := ∅, errorIds := ∅,
    allSelected := true, selectedFormat := "mp3", isDownloading := false }

/-- Models the block of assignments of `extractPlaylist` executed after
the response is confirmed ok and its JSON body parsed. -/
def applyExtract (st : AppState) (vids : List Video) : AppState :=
  { st with videos := vids,
            selectedIds := (videoIds vids).toFinset,
            downloadedIds := ∅, errorIds := ∅, allSelected := true }

/-- Observable outcome of the network interaction inside the try block
of `extractPlaylist`: the fetch may throw, the response may be non-2xx
(the thrown error carries the parsed detail), a 2xx body may fail to
parse, or a parsed body arrives. -/
inductive ExtractOutcome
  | fetchThrow
  | httpError
  | okParseThrow
  | okData (title : String) (vids : List Video)

/-- Marks the three outcomes on which the try block throws before any
state assignment. -/
def ExtractOutcome.isFailure : ExtractOutcome → Bool
  | .okData _ _ => false
  | _ => true

/-- Models `extractPlaylist` as a state transformer over the module
state, parameterised by the text in the url field and by the network
outcome.  The two validation guards return early, and all three failure
outcomes throw into the catch block, before any state assignment. -/
def extractPlaylist (st : AppState) (url : String) (o : ExtractOutcome) : AppState :=
  if url.trim = "" then st
  else if ¬ (url.trim.startsWith "http") then st
  else
    match o with
    | .okData _title vids => applyExtract st vids
    | _ => st

/-- Models `toggleSelection(videoId, card)`: flips membership of the id
in the selection set and recomputes `allSelected` (the card class flip
is DOM-only). -/
def toggleSelection (st : AppState) (videoId : String) : AppState :=
  let sel :=
    if videoId ∈ st.selectedIds then st.selectedIds.erase videoId
    else insert videoId st.selectedIds
  { st with selectedIds := sel,
            allSelected := decide (sel.card = st.videos.length) }

/-- Models a click on a rendered card: guarded by `isDownloading`, then
delegates to `toggleSelection` with the card's own id. -/
def cardClick (st : AppState) (videoId : String) : AppState :=
  if st.isDownloading then st else toggleSelection st videoId

/-- Models the `selectAllBtn` click handler: flips `allSelected`, then
adds the id of every rendered card to the selection set (or deletes them
all).  The rendered cards are one per entry of `videos`. -/
def selectAllClick (st : AppState) : AppState :=
  if st.isDownloading then st
  else
    let a := ! st.allSelected
    let sel :=
      if a then st.selectedIds ∪ (videoIds st.videos).toFinset
      else st.selectedIds \ (videoIds st.videos).toFinset
    { st with allSelected := a, selectedIds := sel }

/-- Models the `newPlaylistBtn` click handler: guarded by
`isDownloading`; clears the playlist and the three id sets. -/
def newPlaylistClick (st : AppState) : AppState :=
  if st.isDownloading then st
  else { st with videos := [], selectedIds := ∅, downloadedIds := ∅, errorIds := ∅ }

/-- Label written to `selectAllBtn` by `updateSelectionUI`. -/
def selectAllLabel (st : AppState) : String :=
  if st.allSelected then "Deselect All" else "Select All"

/-- Outcome of one `/api/download` request for one item: either the try
block of the loop body runs to completion, or something in it throws. -/
inductive DlOutcome
  | success
  | failure
deriving DecidableEq

/-- Mutable data touched by one iteration of the `startDownloads` loop:
the two run-local tallies and the two module-level sets. -/
structure RunState where
  completedCount : Nat
  errorCount : Nat
  downloadedIds : Finset String
  errorIds : Finset String
deriving DecidableEq

/-- Models one iteration of the `for (const videoId of videoIds)` loop
in `startDownloads`: an id with no matching video is skipped
(`continue`); otherwise the request outcome decides which tally and
which set grow. -/
def runItem (vids : List Video) (outcome : String → DlOutcome)
    (rs : RunState) (videoId : String) : RunState :=
  match vids.find? (fun v => v.video_id == videoId) with
  | none => rs
  | some _ =>
    match outcome videoId with
    | .success =>
        { rs with completedCount := rs.completedCount + 1,
                  downloadedIds := insert videoId rs.downloadedIds }
    | .failure =>
        { rs with errorCount := rs.errorCount + 1,
                  errorIds := insert videoId rs.errorIds }

/-- Models the whole `startDownloads` loop over the selected ids. -/
def startDownloads (vids : List Video) (outcome : String → DlOutcome)
    (rs : RunState) (ids : List String) : RunState :=
  ids.foldl (runItem vids outcome) rs

/-- Aggregate progress shown by the overall bar after each iteration,
as a fraction of one: `(completedCount + errorCount) / totalCount`. -/
def aggProgress (rs : RunState) (totalCount : Nat) : ℚ :=
  ((rs.completedCount : ℚ) + (rs.errorCount : ℚ)) / (totalCount : ℚ)

/-- Models a full `startDownloads` call at the module-state level: the
run-local tallies start at zero, the two sets continue from the module
state, and `isDownloading` is reset at the end of the run. -/
def startDownloadsState (st : AppState) (outcome : String → DlOutcome)
    (ids : List String) : AppState :=
  let rs := startDownloads st.videos outcome
    { completedCount := 0, errorCount := 0,
      downloadedIds := st.downloadedIds, errorIds := st.errorIds } ids
  { st with downloadedIds := rs.downloadedIds, errorIds := rs.errorIds,
            isDownloading := false }

/-- User interactions available on the rendered grid. -/
inductive UiOp
  | toggle (videoId : String)
  | selectAll

/-- Applies one grid interaction to the module state. -/
def applyOp (st : AppState) : UiOp → AppState
  | .toggle videoId => cardClick st videoId
  | .selectAll => selectAllClick st

/-- State reached from `st` by a sequence of grid interactions. -/
def reach (st : AppState) (ops : List UiOp) : AppState :=
  ops.foldl applyOp st

/-- Holds of interactions the rendered view can actually produce: card
clicks carry the id of a rendered card. -/
def opValid (vids : List Video) : UiOp → Bool
  | .toggle videoId => (videoIds vids).contains videoId
  | .selectAll => true

end PublicApp

namespace StaticApp

/-- Module-level mutable state of src/static/app.js. -/
structure AppState where
  sessionId : Option String
  playlistTitle : String
  videos : List Video
  selectedIds : Finset String
  downloadedIds : Finset String
  errorIds : Finset String
  allSelected : Bool
  selectedFormat : String
deriving DecidableEq

/-- Initial module state at page load. -/
def pageInit : AppState :=
  { sessionId := none, playlistTitle := "", videos := [], selectedIds := ∅,
    downloadedIds := ∅, errorIds := ∅, allSelected := true,
    selectedFormat := "mp3" }

/-- Observable outcome of the network interaction inside the try block
of `extractPlaylist` (session-bearing variant). -/
inductive ExtractOutcome
  | fetchThrow
  | httpError
  | okParseThrow
  | okData (session_id title : String) (vids : List Video)

/-- Marks the three outcomes on which the try block throws before any
state assignment. -/
def ExtractOutcome.isFailure : ExtractOutcome → Bool
  | .okData _ _ _ => false
  | _ => true

/-- Models the block of assignments of `extractPlaylist` executed after
the response is confirmed ok and its JSON body parsed (push-stream
variant: `session_id` and `playlistTitle` are among the assignments). -/
def applyExtract (st : AppState) (sid title : String) (vids : List Video) : AppState :=
  { st with sessionId := some sid, playlistTitle := title,
            videos := vids,
            selectedIds := (videoIds vids).toFinset,
            downloadedIds := ∅, errorIds := ∅, allSelected := true }

/-- Models `extractPlaylist` of the push-stream variant: identical
control flow to the sequential one. -/
def extractPlaylist (st : AppState) (url : String) (o : ExtractOutcome) : AppState :=
  if url.trim = "" then st
  else if ¬ (url.trim.startsWith "http") then st
  else
    match o with
    | .okData sid title vids => applyExtract st sid title vids
    | _ => st

/-- Models `toggleSelection(videoId, card)` of the push-stream variant
(textually identical to the sequential one). -/
def toggleSelection (st : AppState) (videoId : String) : AppState :=
  let sel :=
    if videoId ∈ st.selectedIds then st.selectedIds.erase videoId
    else insert videoId st.selectedIds
  { st with selectedIds := sel,
            allSelected := decide (sel.card = st.videos.length) }

/-- Models the `selectAllBtn` click handler of the push-stream variant
(no `isDownloading` guard here). -/
def selectAllClick (st : AppState) : AppState :=
  let a := ! st.allSelected
  let sel :=
    if a then st.selectedIds ∪ (videoIds st.videos).toFinset
    else st.selectedIds \ (videoIds st.videos).toFinset
  { st with allSelected := a, selectedIds := sel }

/-- Label written to `selectAllBtn` by `updateSelectionUI`. -/
def selectAllLabel (st : AppState) : String :=
  if st.allSelected then "Deselect All" else "Select All"

/-- Network requests issued by the client outside a download run. -/
inductive Request
  | deleteSession (sessionId : String)
deriving DecidableEq

/-- Models the `newPlaylistBtn` click handler: when a session id exists,
one fire-and-forget DELETE request is issued (its rejection swallowed by
the empty catch); the session, the playlist and the three id sets are
cleared.  Returns the new state and the list of issued requests. -/
def newPlaylistClick (st : AppState) : AppState × List Request :=
  ({ st with sessionId := none, videos := [],
             selectedIds := ∅, downloadedIds := ∅, errorIds := ∅ },
   match st.sessionId with
   | some sid => [Request.deleteSession sid]
   | none => [])

/-- User interactions available on the rendered grid. -/
inductive UiOp
  | toggle (videoId : String)
  | selectAll

/-- Applies one grid interaction to the module state (card clicks are
unguarded in this variant). -/
def applyOp (st : AppState) : UiOp → AppState
  | .toggle videoId => toggleSelection st videoId
  | .selectAll => selectAllClick st

/-- State reached from `st` by a sequence of grid interactions. -/
def reach (st : AppState) (ops : List UiOp) : AppState :=
  ops.foldl applyOp st

/-- Holds of interactions the rendered view can actually produce. -/
def opValid (vids : List Video) : UiOp → Bool
  | .toggle videoId => (videoIds vids).contains videoId
  | .selectAll => true

/-- Per-card presentation state, as mutated by `updateCardState`,
`updateCardProgress` and `setCardError`.  `status` is the status class
last added to the card (empty before any event). -/
structure Card where
  status : String
  icon : String
  progressPct : ℚ
  errorMsg : String
deriving DecidableEq

/-- Card state produced by `renderVideoGrid` for every video. -/
def initCard : Card :=
  { status := "", icon := "", progressPct := 0, errorMsg := "" }

/-- Applies an update to the first card whose `data-video-id` matches
(`document.querySelector` returns the first match); models the
`if (!card) return` guard: no matching card, no change. -/
def setCard (cards : List (String × Card)) (videoId : String)
    (f : Card → Card) : List (String × Card) :=
  match cards with
  | [] => []
  | (k, c) :: rest =>
      if k = videoId then (k, f c) :: rest
      else (k, c) :: setCard rest videoId f

/-- Models `updateCardState`: replaces the status class and, when the
given icon html is truthy, the status-icon content. -/
def updateCardState (cards : List (String × Card))
    (videoId state iconHtml : String) : List (String × Card) :=
  setCard cards videoId (fun c =>
    { c with status := state,
             icon := if iconHtml = "" then c.icon else iconHtml })

/-- Models `updateCardProgress`: sets the per-card fill width. -/
def updateCardProgress (cards : List (String × Card))
    (videoId : String) (percent : ℚ) : List (String × Card) :=
  setCard cards videoId (fun c => { c with progressPct := percent })

/-- Models `setCardError`: writes the per-card error message. -/
def setCardError (cards : List (String × Card))
    (videoId message : String) : List (String × Card) :=
  setCard cards videoId (fun c => { c with errorMsg := message })

/-- Typed server-push events of the download subscription. -/
inductive SseEvent
  | downloading (video_id title : String)
  | progress (video_id : String) (percent : ℚ) (speed : Option String)
  | merging (video_id : String)
  | complete (video_id title : String)
  | error (video_id : String) (message : Option String)
  | all_complete
deriving DecidableEq

/-- State of one push-stream download run: the closure-local tallies of
`startDownload`, the two module-level sets, the per-card view state, and
the global controls the handlers touch. -/
structure DlState where
  completedCount : Nat
  errorCount : Nat
  totalCount : Nat
  downloadedIds : Finset String
  errorIds : Finset String
  cards : List (String × Card)
  downloadStatus : String
  overallProgressText : String
  fillWidthPct : ℚ
  fillComplete : Bool
  zipVisible : Bool
  zipSubtitle : String
  downloadBtnDisabled : Bool
  selectAllBtnDisabled : Bool
  sourceOpen : Bool
deriving DecidableEq

/-- Overall fill width written after a terminal event:
`((completedCount + errorCount) / totalCount) * 100`. -/
def progressFrac (completedCount errorCount totalCount : Nat) : ℚ :=
  (((completedCount : ℚ) + (errorCount : ℚ)) / (totalCount : ℚ)) * 100

/-- Models the preamble of `startDownload(videoIds)` run before the
event source is opened: controls disabled and download bar reset. -/
def startDownloadInit (st : AppState) (cards : List (String × Card))
    (ids : List String) : DlState :=
  { completedCount := 0, errorCount := 0, totalCount := ids.length,
    downloadedIds := st.downloadedIds, errorIds := st.errorIds,
    cards := cards,
    downloadStatus := "Starting downloads...",
    overallProgressText := "0 / " ++ toString ids.length,
    fillWidthPct := 0, fillComplete := false,
    zipVisible := false, zipSubtitle := "",
    downloadBtnDisabled := true, selectAllBtnDisabled := true,
    sourceOpen := true }

/-- Models the `evtSource.onmessage` switch of `startDownload`, applied
to one delivered event. -/
def onMessage (s : DlState) : SseEvent → DlState
  | .downloading vid title =>
      { s with cards := updateCardState s.cards vid "downloading" "&#8595;",
               downloadStatus := "Downloading: " ++ truncate title 40 }
  | .progress vid percent speed =>
      let s1 := { s with cards := updateCardProgress s.cards vid percent }
      match speed with
      | some sp => { s1 with downloadStatus := "Downloading... " ++ sp }
      | none => s1
  | .merging vid =>
      { s with cards := updateCardState s.cards vid "downloading" "&#8635;" }
  | .complete vid title =>
      let completed := s.completedCount + 1
      { s with completedCount := completed,
               downloadedIds := insert vid s.downloadedIds,
               cards := updateCardProgress
                 (updateCardState s.cards vid "complete" "&#8595;") vid 100,
               overallProgressText :=
                 toString completed ++ " / " ++ toString s.totalCount,
               fillWidthPct := progressFrac completed s.errorCount s.totalCount,
               downloadStatus := "Downloaded: " ++ truncate title 40 }
  | .error vid message =>
      let errors := s.errorCount + 1
      { s with errorCount := errors,
               errorIds := insert vid s.errorIds,
               cards := setCardError
                 (updateCardState s.cards vid "error" "!") vid
                 (message.getD "Download failed"),
               overallProgressText :=
                 toString s.completedCount ++ " / " ++ toString s.totalCount,
               fillWidthPct := progressFrac s.completedCount errors s.totalCount }
  | .all_complete =>
      let s1 := { s with sourceOpen := false, downloadBtnDisabled := false,
                         selectAllBtnDisabled := false }
      let s2 :=
        if s1.errorCount = 0 then
          { s1 with downloadStatus := runSummary s1.completedCount s1.errorCount,
                    fillComplete := true }
        else if s1.completedCount = 0 then
          { s1 with downloadStatus := runSummary s1.completedCount s1.errorCount }
        else
          { s1 with downloadStatus := runSummary s1.completedCount s1.errorCount,
                    fillComplete := true }
      if 0 < s2.downloadedIds.card then
        let n := s2.downloadedIds.card
        let subtitle :=
          toString n ++ " video" ++ (if n ≠ 1 then "s" else "") ++
            " ready to download"
        { s2 with zipSubtitle := subtitle, zipVisible := true }
      else s2

/-- Processes a delivered event sequence in arrival order. -/
def runEvents (s : DlState) (events : List SseEvent) : DlState :=
  events.foldl onMessage s

/-- Models `evtSource.onerror`: closes the source, writes the
connectivity message, re-enables the two controls, and touches nothing
else. -/
def onError (s : DlState) : DlState :=
  { s with sourceOpen := false,
           downloadStatus :=
             "Connection lost. Refresh if downloads didn\x27t complete.",
           downloadBtnDisabled := false,
           selectAllBtnDisabled := false }

/-- Holds of events that record a terminal completion for `videoId`. -/
def isCompleteFor (videoId : String) : SseEvent → Bool
  | .complete vid _ => vid == videoId
  | _ => false

/-- Holds of events that record a terminal error for `videoId`. -/
def isErrorFor (videoId : String) : SseEvent → Bool
  | .error vid _ => vid == videoId
  | _ => false

/-- Holds of terminal events (complete or error) for `videoId`. -/
def isTerminalFor (videoId : String) (e : SseEvent) : Bool :=
  isCompleteFor videoId e || isErrorFor videoId e

end StaticApp

/-! ### Escaping lemmas (C7) -/

lemma escapeHtmlChar_no_lt (a : Char) : '<' ∉ escapeHtmlChar a := by
  unfold escapeHtmlChar
  split_ifs with h1 h2 h3
  · decide
  · decide
  · decide
  · simp only [List.mem_singleton]
    intro h
    exact h2 h.symm

lemma escapeHtmlChar_no_gt (a : Char) : '>' ∉ escapeHtmlChar a := by
  unfold escapeHtmlChar
  split_ifs with h1 h2 h3
  · decide
  · decide
  · decide
  · simp only [List.mem_singleton]
    intro h
    exact h3 h.symm

lemma escapeHtml_no_markup (s : String) :
    '<' ∉ (escapeHtml s).data ∧ '>' ∉ (escapeHtml s).data := by
  constructor
  · intro h
    have h2 : '<' ∈ s.data.flatMap escapeHtmlChar := h
    rw [List.mem_flatMap] at h2
    obtain ⟨a, -, ha⟩ := h2
    exact escapeHtmlChar_no_lt a ha
  · intro h
    have h2 : '>' ∈ s.data.flatMap escapeHtmlChar := h
    rw [List.mem_flatMap] at h2
    obtain ⟨a, -, ha⟩ := h2
    exact escapeHtmlChar_no_gt a ha

lemma jsReplaceAllChar_no_self {c : Char} (rep : String) (s : String)
    (h : c ∉ rep.data) : c ∉ (jsReplaceAllChar c rep s).data := by
  intro hm
  have hm2 : c ∈ s.data.flatMap (fun x => if x = c then rep.data else [x]) := hm
  rw [List.mem_flatMap] at hm2
  obtain ⟨a, -, ha⟩ := hm2
  by_cases hac : a = c
  · rw [if_pos hac] at ha
    exact h ha
  · rw [if_neg hac] at ha
    rw [List.mem_singleton] at ha
    exact hac ha.symm

lemma jsReplaceAllChar_no_other {d c : Char} (rep : String) (s : String)
    (hs : d ∉ s.data) (hrep : d ∉ rep.data) :
    d ∉ (jsReplaceAllChar c rep s).data := by
  intro hm
  have hm2 : d ∈ s.data.flatMap (fun x => if x = c then rep.data else [x]) := hm
  rw [List.mem_flatMap] at hm2
  obtain ⟨a, haS, ha⟩ := hm2
  by_cases hac : a = c
  · rw [if_pos hac] at ha
    exact hrep ha
  · rw [if_neg hac] at ha
    rw [List.mem_singleton] at ha
    exact hs (by rwa [ha])

lemma escapeAttr_attr_safe (s : String) :
    '<' ∉ (escapeAttr s).data ∧ '>' ∉ (escapeAttr s).data ∧
    quoteChar ∉ (escapeAttr s).data ∧ aposChar ∉ (escapeAttr s).data := by
  unfold escapeAttr
  refine ⟨?_, ?_, ?_, ?_⟩
  · exact jsReplaceAllChar_no_other _ _
      (jsReplaceAllChar_no_self _ _ (by decide)) (by decide)
  · exact jsReplaceAllChar_no_self _ _ (by decide)
  · exact jsReplaceAllChar_no_other _ _
      (jsReplaceAllChar_no_other _ _
        (jsReplaceAllChar_no_other _ _
          (jsReplaceAllChar_no_self _ _ (by decide)) (by decide)) (by decide))
      (by decide)
  · exact jsReplaceAllChar_no_other _ _
      (jsReplaceAllChar_no_other _ _
        (jsReplaceAllChar_no_self _ _ (by decide)) (by decide)) (by decide)

/-- C7: every user-supplied text inserted into the card template passes
through `escapeHtml` (text positions) or `escapeAttr` (attribute
positions), and the escaped output contains no raw markup-significant
character: no less-than or greater-than in text output, and additionally
no double quote or apostrophe in attribute output — so a title with
markup characters renders as literal text, never as parsed markup. -/
theorem c7_escaping :
    (∀ v : Video, cardInnerHTML v =
      cardTpl1 ++ escapeAttr (thumbUrlOf v) ++ cardTpl2 ++ escapeAttr v.title ++
        cardTpl3 ++ durationBadge v ++ cardTpl4 ++ escapeHtml v.title ++
        cardTpl5 ++ metaHtml v ++ cardTpl6) ∧
    (∀ s : String, '<' ∉ (escapeHtml s).data ∧ '>' ∉ (escapeHtml s).data) ∧
    (∀ s : String, '<' ∉ (escapeAttr s).data ∧ '>' ∉ (escapeAttr s).data ∧
      quoteChar ∉ (escapeAttr s).data ∧ aposChar ∉ (escapeAttr s).data) :=
  ⟨fun _ => rfl, fun s => escapeHtml_no_markup s, fun s => escapeAttr_attr_safe s⟩

/-! ### Concrete fixtures used by scenario theorems and witnesses -/

/-- Fixture video with identifier a. -/
def vidA : Video :=
  { video_id := "a", title := "Song A", url := "https://w/a", thumbnail := "",
    duration_str := "", uploader := "" }

/-- Fixture video with identifier b. -/
def vidB : Video :=
  { video_id := "b", title := "Song B", url := "https://w/b", thumbnail := "",
    duration_str := "", uploader := "" }

/-- Fixture sequential-variant module state holding one rendered video. -/
def pubStateA : PublicApp.AppState :=
  { videos := [vidA], selectedIds := {"a"}, downloadedIds := ∅, errorIds := ∅,
    allSelected := true, selectedFormat := "mp3", isDownloading := false }

/-- Fixture push-variant module state holding one rendered video. -/
def stStateA : StaticApp.AppState :=
  { sessionId := none, playlistTitle := "", videos := [vidA],
    selectedIds := ∅, downloadedIds := ∅, errorIds := ∅,
    allSelected := false, selectedFormat := "mp3" }

/-- Fixture push-variant module state after extracting a two-item
playlist with a session. -/
def stStateAB : StaticApp.AppState :=
  { sessionId := some "sid1", playlistTitle := "PL", videos := [vidA, vidB],
    selectedIds := {"a", "b"}, downloadedIds := ∅, errorIds := ∅,
    allSelected := true, selectedFormat := "mp3" }

/-- Fixture rendered cards of the two-item playlist. -/
def cardsFix : List (String × StaticApp.Card) :=
  [("a", StaticApp.initCard), ("b", StaticApp.initCard)]

/-- Fixture run-local state with zero tallies and empty sets. -/
def rsFix : PublicApp.RunState :=
  { completedCount := 0, errorCount := 0, downloadedIds := ∅, errorIds := ∅ }

/-- Download-run state right after `startDownload(["a", "b"])` opens the
subscription on the two-item playlist. -/
def dlRunFix : StaticApp.DlState :=
  StaticApp.startDownloadInit stStateAB cardsFix ["a", "b"]

/-- Event sequence of the two-item push-stream scenario. -/
def twoItemEvents : List StaticApp.SseEvent :=
  [.downloading "a" "Song A", .progress "a" 50 none, .complete "a" "Song A",
   .error "b" none, .all_complete]

/-- Final run state of the two-item push-stream scenario. -/
def twoItemFinal : StaticApp.DlState :=
  StaticApp.runEvents dlRunFix twoItemEvents

/-- C4: in the push-stream variant, the run over the two selected items
a and b receiving downloading(a), progress(a,50), complete(a), error(b),
all_complete ends with one completed and one failed item, the summary
line reporting exactly that, and the zip affordance visible because the
completed count is positive. -/
theorem c4_two_item_scenario :
    twoItemFinal.completedCount = 1 ∧ twoItemFinal.errorCount = 1 ∧
    twoItemFinal.downloadStatus = "1 downloaded, 1 failed" ∧
    twoItemFinal.downloadStatus = runSummary 1 1 ∧
    twoItemFinal.zipVisible = true ∧
    0 < twoItemFinal.downloadedIds.card :=
  ⟨rfl, rfl, rfl, rfl, rfl, by decide⟩

/-- C6: a transport-level failure of the subscription closes the event
source, writes the connectivity-failure status message, re-enables the
download and select-all controls, and leaves every other part of the run
state — per-card statuses, both id sets, both tallies, the progress
fill, the zip section — unchanged. -/
theorem c6_transport_error : ∀ s : StaticApp.DlState,
    (StaticApp.onError s).sourceOpen = false ∧
    (StaticApp.onError s).downloadStatus =
      "Connection lost. Refresh if downloads didn\x27t complete." ∧
    (StaticApp.onError s).downloadBtnDisabled = false ∧
    (StaticApp.onError s).selectAllBtnDisabled = false ∧
    (StaticApp.onError s).cards = s.cards ∧
    (StaticApp.onError s).downloadedIds = s.downloadedIds ∧
    (StaticApp.onError s).errorIds = s.errorIds ∧
    (StaticApp.onError s).completedCount = s.completedCount ∧
    (StaticApp.onError s).errorCount = s.errorCount ∧
    (StaticApp.onError s).fillWidthPct = s.fillWidthPct ∧
    (StaticApp.onError s).zipVisible = s.zipVisible :=
  fun _ => ⟨rfl, rfl, rfl, rfl, rfl, rfl, rfl, rfl, rfl, rfl, rfl⟩

/-! ### Toggle involution (C9) -/

lemma toggle_toggle_finset (s : Finset String) (x : String) :
    (if x ∈ (if x ∈ s then s.erase x else insert x s) then
       (if x ∈ s then s.erase x else insert x s).erase x
     else insert x (if x ∈ s then s.erase x else insert x s)) = s := by
  by_cases h : x ∈ s
  · rw [if_pos h, if_neg (Finset.not_mem_erase x s)]
    exact Finset.insert_erase h
  · rw [if_neg h, if_pos (Finset.mem_insert_self x s)]
    exact Finset.erase_insert h

/-- C9: for an identifier of the current playlist, toggling its
selection twice in succession returns the selection set to exactly its
prior state, in both variants. -/
theorem c9_toggle_involution :
    (∀ (st : PublicApp.AppState) (videoId : String),
      videoId ∈ videoIds st.videos →
      (PublicApp.toggleSelection (PublicApp.toggleSelection st videoId)
          videoId).selectedIds = st.selectedIds) ∧
    (∀ (st : StaticApp.AppState) (videoId : String),
      videoId ∈ videoIds st.videos →
      (StaticApp.toggleSelection (StaticApp.toggleSelection st videoId)
          videoId).selectedIds = st.selectedIds) := by
  constructor
  · intro st videoId _h
    simp only [PublicApp.toggleSelection]
    exact toggle_toggle_finset st.selectedIds videoId
  · intro st videoId _h
    simp only [StaticApp.toggleSelection]
    exact toggle_toggle_finset st.selectedIds videoId

/-- Witness for C9 at the one-video fixtures. -/
theorem c9_toggle_involution_witness :
    ("a" ∈ videoIds pubStateA.videos ∧
      (PublicApp.toggleSelection (PublicApp.toggleSelection pubStateA "a")
          "a").selectedIds = pubStateA.selectedIds) ∧
    ("a" ∈ videoIds stStateA.videos ∧
      (StaticApp.toggleSelection (StaticApp.toggleSelection stStateA "a")
          "a").selectedIds = stStateA.selectedIds) :=
  ⟨⟨by decide, c9_toggle_involution.1 pubStateA "a" (by decide)⟩,
   ⟨by decide, c9_toggle_involution.2 stStateA "a" (by decide)⟩⟩

/-! ### Missing-identifier behaviour (C2) -/

/-- C2 fails as stated: for the identifier zzz, absent from the rendered
playlist, `toggleSelection` is not a no-op on the selection set, and a
push-stream error event for zzz inserts it into the error set. -/
theorem c2_counterexample :
    ("zzz" ∉ videoIds pubStateA.videos ∧
      (PublicApp.toggleSelection pubStateA "zzz").selectedIds ≠
        pubStateA.selectedIds) ∧
    ((∀ p ∈ dlRunFix.cards, p.1 ≠ "zzz") ∧ "zzz" ∉ dlRunFix.errorIds ∧
      "zzz" ∈ (StaticApp.onMessage dlRunFix
        (StaticApp.SseEvent.error "zzz" none)).errorIds) := by
  refine ⟨⟨by decide, by decide⟩, ⟨by decide, by decide, by decide⟩⟩

lemma setCard_eq_of_no_key (videoId : String) (f : StaticApp.Card → StaticApp.Card) :
    ∀ cards : List (String × StaticApp.Card),
      (∀ p ∈ cards, p.1 ≠ videoId) → StaticApp.setCard cards videoId f = cards := by
  intro cards
  induction cards with
  | nil => intro _; rfl
  | cons hd tl ih =>
    intro h
    obtain ⟨k, c⟩ := hd
    unfold StaticApp.setCard
    rw [if_neg (h (k, c) (List.mem_cons_self _ _))]
    rw [ih (fun p hp => h p (List.mem_cons_of_mem _ hp))]

/-- C2 amended: only the sequential download loop guards against an
identifier with no matching video — such an id is skipped, leaving
tallies and both sets unchanged — and the card-level DOM updates are
no-ops for unknown identifiers; but the state-level operations are not
defensive: `toggleSelection` inserts a foreign identifier into the
selection set, and the push-stream complete and error handlers insert
the event identifier into their sets without any membership check. -/
theorem c2_missing_id_guard :
    (∀ (vids : List Video) (outcome : String → PublicApp.DlOutcome)
        (rs : PublicApp.RunState) (videoId : String),
        videoId ∉ videoIds vids →
        PublicApp.runItem vids outcome rs videoId = rs) ∧
    (∀ (cards : List (String × StaticApp.Card)) (videoId state iconHtml : String),
        (∀ p ∈ cards, p.1 ≠ videoId) →
        StaticApp.updateCardState cards videoId state iconHtml = cards) ∧
    (∀ (st : PublicApp.AppState) (videoId : String),
        videoId ∉ st.selectedIds →
        (PublicApp.toggleSelection st videoId).selectedIds =
          insert videoId st.selectedIds) ∧
    (∀ (s : StaticApp.DlState) (videoId title : String),
        (StaticApp.onMessage s
            (StaticApp.SseEvent.complete videoId title)).downloadedIds =
          insert videoId s.downloadedIds) ∧
    (∀ (s : StaticApp.DlState) (videoId : String) (message : Option String),
        (StaticApp.onMessage s
            (StaticApp.SseEvent.error videoId message)).errorIds =
          insert videoId s.errorIds) := by
  refine ⟨?_, ?_, ?_, ?_, ?_⟩
  · intro vids outcome rs videoId h
    have hnone : vids.find? (fun v => v.video_id == videoId) = none := by
      rw [List.find?_eq_none]
      intro v hv hbeq
      rw [beq_iff_eq] at hbeq
      exact h (List.mem_map.mpr ⟨v, hv, hbeq⟩)
    unfold PublicApp.runItem
    rw [hnone]
  · intro cards videoId state iconHtml h
    exact setCard_eq_of_no_key videoId _ cards h
  · intro st videoId h
    simp only [PublicApp.toggleSelection]
    rw [if_neg h]
  · intro s videoId title
    rfl
  · intro s videoId message
    rfl

/-- Witness for C2 amended at the fixtures. -/
theorem c2_missing_id_guard_witness :
    ("zzz" ∉ videoIds [vidA] ∧
      PublicApp.runItem [vidA] (fun _ => PublicApp.DlOutcome.success)
        rsFix "zzz" = rsFix) ∧
    ((∀ p ∈ cardsFix, p.1 ≠ "zzz") ∧
      StaticApp.updateCardState cardsFix "zzz" "error" "!" = cardsFix) ∧
    ("zzz" ∉ pubStateA.selectedIds ∧
      (PublicApp.toggleSelection pubStateA "zzz").selectedIds =
        insert "zzz" pubStateA.selectedIds) ∧
    ((StaticApp.onMessage dlRunFix
        (StaticApp.SseEvent.complete "zzz" "T")).downloadedIds =
      insert "zzz" dlRunFix.downloadedIds) ∧
    ((StaticApp.onMessage dlRunFix
        (StaticApp.SseEvent.error "zzz" none)).errorIds =
      insert "zzz" dlRunFix.errorIds) :=
  ⟨⟨by decide, c2_missing_id_guard.1 [vidA] _ rsFix "zzz" (by decide)⟩,
   ⟨by decide, c2_missing_id_guard.2.1 cardsFix "zzz" "error" "!" (by decide)⟩,
   ⟨by decide, c2_missing_id_guard.2.2.1 pubStateA "zzz" (by decide)⟩,
   c2_missing_id_guard.2.2.2.1 dlRunFix "zzz" "T",
   c2_missing_id_guard.2.2.2.2 dlRunFix "zzz" none⟩

/-! ### Completed/error set disjointness (C1) -/

/-- Sequential-variant state after extracting the one-item playlist and
running one download of a that succeeds. -/
def runOnceSt : PublicApp.AppState :=
  PublicApp.startDownloadsState (PublicApp.applyExtract PublicApp.pageInit [vidA])
    (fun _ => PublicApp.DlOutcome.success) ["a"]

/-- State after a second run over the same still-loaded playlist in
which the download of a fails. -/
def runTwiceSt : PublicApp.AppState :=
  PublicApp.startDownloadsState runOnceSt (fun _ => PublicApp.DlOutcome.failure) ["a"]

/-- C1 fails as stated: over a sequence of two download runs on the same
loaded playlist (a succeeds in the first run, fails in the second), the
identifier a ends up in both the completed set and the error set — the
two sets are only cleared on playlist load, never between runs. -/
theorem c1_counterexample :
    runTwiceSt.videos = [vidA] ∧
    "a" ∈ runTwiceSt.downloadedIds ∧ "a" ∈ runTwiceSt.errorIds := by
  refine ⟨by decide, by decide, by decide⟩

lemma runItem_outcome_invariant (vids : List Video)
    (outcome : String → PublicApp.DlOutcome) (videoId : String)
    (rs : PublicApp.RunState) (a : String)
    (hd : videoId ∈ rs.downloadedIds → outcome videoId = .success)
    (he : videoId ∈ rs.errorIds → outcome videoId = .failure) :
    (videoId ∈ (PublicApp.runItem vids outcome rs a).downloadedIds →
      outcome videoId = .success) ∧
    (videoId ∈ (PublicApp.runItem vids outcome rs a).errorIds →
      outcome videoId = .failure) := by
  unfold PublicApp.runItem
  cases hfind : vids.find? (fun v => v.video_id == a) with
  | none => exact ⟨hd, he⟩
  | some v =>
    cases hout : outcome a with
    | success =>
      constructor
      · intro hmem
        rcases Finset.mem_insert.mp hmem with h1 | h1
        · rw [h1]; exact hout
        · exact hd h1
      · exact he
    | failure =>
      constructor
      · exact hd
      · intro hmem
        rcases Finset.mem_insert.mp hmem with h1 | h1
        · rw [h1]; exact hout
        · exact he h1

lemma startDownloads_outcome_invariant (vids : List Video)
    (outcome : String → PublicApp.DlOutcome) (videoId : String) :
    ∀ (ids : List String) (rs : PublicApp.RunState),
      (videoId ∈ rs.downloadedIds → outcome videoId = .success) →
      (videoId ∈ rs.errorIds → outcome videoId = .failure) →
      (videoId ∈ (PublicApp.startDownloads vids outcome rs ids).downloadedIds →
        outcome videoId = .success) ∧
      (videoId ∈ (PublicApp.startDownloads vids outcome rs ids).errorIds →
        outcome videoId = .failure) := by
  intro ids
  induction ids with
  | nil => intro rs hd he; exact ⟨hd, he⟩
  | cons a l ih =>
    intro rs hd he
    have step := runItem_outcome_invariant vids outcome videoId rs a hd he
    exact ih (PublicApp.runItem vids outcome rs a) step.1 step.2

lemma countP_cons_false {α : Type} (p : α → Bool) (a : α) (l : List α)
    (h : p a = false) : (a :: l).countP p = l.countP p := by
  rw [List.countP_cons, h]
  rfl

lemma countP_cons_true {α : Type} (p : α → Bool) (a : α) (l : List α)
    (h : p a = true) : (a :: l).countP p = l.countP p + 1 := by
  rw [List.countP_cons, h, if_pos rfl]

lemma onMessage_downloadedIds (s : StaticApp.DlState) (e : StaticApp.SseEvent)
    (videoId : String) :
    videoId ∈ (StaticApp.onMessage s e).downloadedIds ↔
      (StaticApp.isCompleteFor videoId e = true ∨ videoId ∈ s.downloadedIds) := by
  cases e with
  | downloading vid title => simp [StaticApp.onMessage, StaticApp.isCompleteFor]
  | progress vid percent speed =>
    cases speed <;> simp [StaticApp.onMessage, StaticApp.isCompleteFor]
  | merging vid => simp [StaticApp.onMessage, StaticApp.isCompleteFor]
  | complete vid title =>
    have h2 : (StaticApp.onMessage s
        (StaticApp.SseEvent.complete vid title)).downloadedIds
        = insert vid s.downloadedIds := rfl
    have h3 : StaticApp.isCompleteFor videoId
        (StaticApp.SseEvent.complete vid title) = (vid == videoId) := rfl
    rw [h2, h3, Finset.mem_insert]
    constructor
    · rintro (h4 | h4)
      · exact Or.inl (by rw [beq_iff_eq]; exact h4.symm)
      · exact Or.inr h4
    · rintro (h4 | h4)
      · exact Or.inl (by rw [beq_iff_eq] at h4; exact h4.symm)
      · exact Or.inr h4
  | error vid message =>
    simp [StaticApp.onMessage, StaticApp.isCompleteFor]
  | all_complete =>
    have h1 : StaticApp.isCompleteFor videoId StaticApp.SseEvent.all_complete
        = false := rfl
    rw [h1]
    simp only [Bool.false_eq_true, false_or]
    simp only [StaticApp.onMessage]
    split_ifs <;> exact Iff.rfl

lemma onMessage_errorIds (s : StaticApp.DlState) (e : StaticApp.SseEvent)
    (videoId : String) :
    videoId ∈ (StaticApp.onMessage s e).errorIds ↔
      (StaticApp.isErrorFor videoId e = true ∨ videoId ∈ s.errorIds) := by
  cases e with
  | downloading vid title => simp [StaticApp.onMessage, StaticApp.isErrorFor]
  | progress vid percent speed =>
    cases speed <;> simp [StaticApp.onMessage, StaticApp.isErrorFor]
  | merging vid => simp [StaticApp.onMessage, StaticApp.isErrorFor]
  | complete vid title =>
    simp [StaticApp.onMessage, StaticApp.isErrorFor]
  | error vid message =>
    have h2 : (StaticApp.onMessage s
        (StaticApp.SseEvent.error vid message)).errorIds
        = insert vid s.errorIds := rfl
    have h3 : StaticApp.isErrorFor videoId
        (StaticApp.SseEvent.error vid message) = (vid == videoId) := rfl
    rw [h2, h3, Finset.mem_insert]
    constructor
    · rintro (h4 | h4)
      · exact Or.inl (by rw [beq_iff_eq]; exact h4.symm)
      · exact Or.inr h4
    · rintro (h4 | h4)
      · exact Or.inl (by rw [beq_iff_eq] at h4; exact h4.symm)
      · exact Or.inr h4
  | all_complete =>
    have h1 : StaticApp.isErrorFor videoId StaticApp.SseEvent.all_complete
        = false := rfl
    rw [h1]
    simp only [Bool.false_eq_true, false_or]
    simp only [StaticApp.onMessage]
    split_ifs <;> exact Iff.rfl

lemma runEvents_no_complete (videoId : String) :
    ∀ (events : List StaticApp.SseEvent) (s : StaticApp.DlState),
      events.countP (StaticApp.isCompleteFor videoId) = 0 →
      videoId ∉ s.downloadedIds →
      videoId ∉ (StaticApp.runEvents s events).downloadedIds := by
  intro events
  induction events with
  | nil => intro s _ h; exact h
  | cons e l ih =>
    intro s hcnt hmem
    cases hb : StaticApp.isCompleteFor videoId e with
    | true =>
      rw [countP_cons_true _ _ _ hb] at hcnt
      exact absurd hcnt (by omega)
    | false =>
      rw [countP_cons_false _ _ _ hb] at hcnt
      apply ih (StaticApp.onMessage s e) hcnt
      rw [onMessage_downloadedIds]
      rintro (h1 | h1)
      · rw [hb] at h1; cases h1
      · exact hmem h1

lemma runEvents_no_error (videoId : String) :
    ∀ (events : List StaticApp.SseEvent) (s : StaticApp.DlState),
      events.countP (StaticApp.isErrorFor videoId) = 0 →
      videoId ∉ s.errorIds →
      videoId ∉ (StaticApp.runEvents s events).errorIds := by
  intro events
  induction events with
  | nil => intro s _ h; exact h
  | cons e l ih =>
    intro s hcnt hmem
    cases hb : StaticApp.isErrorFor videoId e with
    | true =>
      rw [countP_cons_true _ _ _ hb] at hcnt
      exact absurd hcnt (by omega)
    | false =>
      rw [countP_cons_false _ _ _ hb] at hcnt
      apply ih (StaticApp.onMessage s e) hcnt
      rw [onMessage_errorIds]
      rintro (h1 | h1)
      · rw [hb] at h1; cases h1
      · exact hmem h1

lemma not_complete_and_error (videoId : String) (e : StaticApp.SseEvent) :
    ¬(StaticApp.isCompleteFor videoId e = true ∧
      StaticApp.isErrorFor videoId e = true) := by
  cases e <;> simp [StaticApp.isCompleteFor, StaticApp.isErrorFor]

lemma runEvents_once_disjoint (videoId : String) :
    ∀ (events : List StaticApp.SseEvent) (s : StaticApp.DlState),
      events.countP (StaticApp.isTerminalFor videoId) ≤ 1 →
      videoId ∉ s.downloadedIds → videoId ∉ s.errorIds →
      ¬(videoId ∈ (StaticApp.runEvents s events).downloadedIds ∧
        videoId ∈ (StaticApp.runEvents s events).errorIds) := by
  intro events
  induction events with
  | nil => intro s _ hd _ h; exact hd h.1
  | cons e l ih =>
    intro s hcnt hd he
    have hterm : ∀ a ∈ l, StaticApp.isErrorFor videoId a = true →
        StaticApp.isTerminalFor videoId a = true := by
      intro a _ ha
      unfold StaticApp.isTerminalFor
      rw [ha, Bool.or_true]
    have htermc : ∀ a ∈ l, StaticApp.isCompleteFor videoId a = true →
        StaticApp.isTerminalFor videoId a = true := by
      intro a _ ha
      unfold StaticApp.isTerminalFor
      rw [ha, Bool.true_or]
    cases hb : StaticApp.isTerminalFor videoId e with
    | false =>
      rw [countP_cons_false _ _ _ hb] at hcnt
      have hb1 : StaticApp.isCompleteFor videoId e = false :=
        (Bool.or_eq_false_iff.mp hb).1
      have hb2 : StaticApp.isErrorFor videoId e = false :=
        (Bool.or_eq_false_iff.mp hb).2
      apply ih (StaticApp.onMessage s e) hcnt
      · rw [onMessage_downloadedIds]
        rintro (h1 | h1)
        · rw [hb1] at h1; cases h1
        · exact hd h1
      · rw [onMessage_errorIds]
        rintro (h1 | h1)
        · rw [hb2] at h1; cases h1
        · exact he h1
    | true =>
      rw [countP_cons_true _ _ _ hb] at hcnt
      have hl : l.countP (StaticApp.isTerminalFor videoId) = 0 := by omega
      have hle : l.countP (StaticApp.isErrorFor videoId) = 0 :=
        Nat.le_zero.mp (hl ▸ List.countP_mono_left hterm)
      have hlc : l.countP (StaticApp.isCompleteFor videoId) = 0 :=
        Nat.le_zero.mp (hl ▸ List.countP_mono_left htermc)
      cases hc : StaticApp.isCompleteFor videoId e with
      | true =>
        have herr : StaticApp.isErrorFor videoId e = false := by
          by_contra hx
          exact not_complete_and_error videoId e ⟨hc, Bool.of_not_eq_false hx⟩
        rintro ⟨-, h2⟩
        have hne : videoId ∉
            (StaticApp.runEvents (StaticApp.onMessage s e) l).errorIds := by
          apply runEvents_no_error videoId l (StaticApp.onMessage s e) hle
          rw [onMessage_errorIds]
          rintro (h1 | h1)
          · rw [herr] at h1; cases h1
          · exact he h1
        exact hne h2
      | false =>
        rintro ⟨h1, -⟩
        have hnd : videoId ∉
            (StaticApp.runEvents (StaticApp.onMessage s e) l).downloadedIds := by
          apply runEvents_no_complete videoId l (StaticApp.onMessage s e) hlc
          rw [onMessage_downloadedIds]
          rintro (h2 | h2)
          · rw [hc] at h2; cases h2
          · exact hd h2
        exact hnd h1

/-- C1 amended: within a single download run whose starting state holds
the identifier in neither set, the identifier ends in at most one of the
completed and error sets — in the sequential variant unconditionally,
and in the push-stream variant whenever the run delivers at most one
terminal (complete or error) event for the identifier, as the backend
event contract guarantees — and a playlist load clears both sets in
both variants.  Across several runs on the same playlist the starting
condition can fail, and an identifier may then belong to both sets. -/
theorem c1_run_disjointness :
    (∀ (vids : List Video) (outcome : String → PublicApp.DlOutcome)
        (rs : PublicApp.RunState) (ids : List String) (videoId : String),
        videoId ∉ rs.downloadedIds → videoId ∉ rs.errorIds →
        ¬(videoId ∈ (PublicApp.startDownloads vids outcome rs ids).downloadedIds ∧
          videoId ∈ (PublicApp.startDownloads vids outcome rs ids).errorIds)) ∧
    (∀ (events : List StaticApp.SseEvent) (s : StaticApp.DlState)
        (videoId : String),
        events.countP (StaticApp.isTerminalFor videoId) ≤ 1 →
        videoId ∉ s.downloadedIds → videoId ∉ s.errorIds →
        ¬(videoId ∈ (StaticApp.runEvents s events).downloadedIds ∧
          videoId ∈ (StaticApp.runEvents s events).errorIds)) ∧
    (∀ (st : PublicApp.AppState) (vids : List Video),
        (PublicApp.applyExtract st vids).downloadedIds = ∅ ∧
        (PublicApp.applyExtract st vids).errorIds = ∅) ∧
    (∀ (st : StaticApp.AppState) (sid title : String) (vids : List Video),
        (StaticApp.applyExtract st sid title vids).downloadedIds = ∅ ∧
        (StaticApp.applyExtract st sid title vids).errorIds = ∅) := by
  refine ⟨?_, ?_, ?_, ?_⟩
  · intro vids outcome rs ids videoId hd he
    rintro ⟨h1, h2⟩
    have inv := startDownloads_outcome_invariant vids outcome videoId ids rs
      (fun hx => absurd hx hd) (fun hx => absurd hx he)
    have hs := inv.1 h1
    have hf := inv.2 h2
    rw [hs] at hf
    cases hf
  · intro events s videoId hcnt hd he
    exact runEvents_once_disjoint videoId events s hcnt hd he
  · intro st vids
    exact ⟨rfl, rfl⟩
  · intro st sid title vids
    exact ⟨rfl, rfl⟩

/-- Witness for C1 amended: a fresh one-item run in the sequential
variant, and the two-item event scenario in the push-stream variant. -/
theorem c1_run_disjointness_witness :
    (("a" ∉ rsFix.downloadedIds ∧ "a" ∉ rsFix.errorIds) ∧
      ¬("a" ∈ (PublicApp.startDownloads [vidA]
            (fun _ => PublicApp.DlOutcome.success) rsFix ["a"]).downloadedIds ∧
        "a" ∈ (PublicApp.startDownloads [vidA]
            (fun _ => PublicApp.DlOutcome.success) rsFix ["a"]).errorIds)) ∧
    ((twoItemEvents.countP (StaticApp.isTerminalFor "a") ≤ 1 ∧
        "a" ∉ dlRunFix.downloadedIds ∧ "a" ∉ dlRunFix.errorIds) ∧
      ¬("a" ∈ (StaticApp.runEvents dlRunFix twoItemEvents).downloadedIds ∧
        "a" ∈ (StaticApp.runEvents dlRunFix twoItemEvents).errorIds)) :=
  ⟨⟨⟨by decide, by decide⟩,
    c1_run_disjointness.1 [vidA] _ rsFix ["a"] "a" (by decide) (by decide)⟩,
   ⟨⟨by decide, by decide, by decide⟩,
    c1_run_disjointness.2.1 twoItemEvents dlRunFix "a" (by decide) (by decide)
      (by decide)⟩⟩

/-! ### Sequential aggregate progress (C5) -/

/-- Run-local state at the start of a `startDownloads` call: zero
tallies over the module-level sets. -/
def freshRun (d0 e0 : Finset String) : PublicApp.RunState :=
  { completedCount := 0, errorCount := 0, downloadedIds := d0, errorIds := e0 }

lemma startDownloads_counts (vids : List Video)
    (outcome : String → PublicApp.DlOutcome) :
    ∀ (ids : List String) (rs : PublicApp.RunState),
      (∀ videoId ∈ ids,
        (vids.find? (fun v => v.video_id == videoId)).isSome = true) →
      (PublicApp.startDownloads vids outcome rs ids).completedCount +
        (PublicApp.startDownloads vids outcome rs ids).errorCount =
        rs.completedCount + rs.errorCount + ids.length := by
  intro ids
  induction ids with
  | nil => intro rs _; rfl
  | cons a l ih =>
    intro rs h
    have ha := h a (List.mem_cons_self a l)
    have hrec := ih (PublicApp.runItem vids outcome rs a)
      (fun x hx => h x (List.mem_cons_of_mem a hx))
    have hstep : (PublicApp.runItem vids outcome rs a).completedCount +
        (PublicApp.runItem vids outcome rs a).errorCount =
        rs.completedCount + rs.errorCount + 1 := by
      unfold PublicApp.runItem
      cases hfind : vids.find? (fun v => v.video_id == a) with
      | none => rw [hfind] at ha; cases ha
      | some v =>
        cases outcome a with
        | success =>
          show rs.completedCount + 1 + rs.errorCount =
            rs.completedCount + rs.errorCount + 1
          omega
        | failure => rfl
    show (PublicApp.startDownloads vids outcome
        (PublicApp.runItem vids outcome rs a) l).completedCount +
      (PublicApp.startDownloads vids outcome
        (PublicApp.runItem vids outcome rs a) l).errorCount =
      rs.completedCount + rs.errorCount + (a :: l).length
    rw [hrec, hstep, List.length_cons]
    omega

lemma runItem_sets_mono (vids : List Video)
    (outcome : String → PublicApp.DlOutcome) (rs : PublicApp.RunState)
    (a : String) :
    rs.downloadedIds ⊆ (PublicApp.runItem vids outcome rs a).downloadedIds ∧
    rs.errorIds ⊆ (PublicApp.runItem vids outcome rs a).errorIds := by
  unfold PublicApp.runItem
  cases vids.find? (fun v => v.video_id == a) with
  | none => exact ⟨Finset.Subset.refl _, Finset.Subset.refl _⟩
  | some v =>
    cases outcome a with
    | success => exact ⟨Finset.subset_insert _ _, Finset.Subset.refl _⟩
    | failure => exact ⟨Finset.Subset.refl _, Finset.subset_insert _ _⟩

lemma startDownloads_sets_mono (vids : List Video)
    (outcome : String → PublicApp.DlOutcome) :
    ∀ (ids : List String) (rs : PublicApp.RunState),
      rs.downloadedIds ⊆
        (PublicApp.startDownloads vids outcome rs ids).downloadedIds ∧
      rs.errorIds ⊆ (PublicApp.startDownloads vids outcome rs ids).errorIds := by
  intro ids
  induction ids with
  | nil => intro rs; exact ⟨Finset.Subset.refl _, Finset.Subset.refl _⟩
  | cons a l ih =>
    intro rs
    have hstep := runItem_sets_mono vids outcome rs a
    have hrec := ih (PublicApp.runItem vids outcome rs a)
    exact ⟨Finset.Subset.trans hstep.1 hrec.1, Finset.Subset.trans hstep.2 hrec.2⟩

lemma startDownloads_resolves (vids : List Video)
    (outcome : String → PublicApp.DlOutcome) :
    ∀ (ids : List String) (rs : PublicApp.RunState),
      (∀ videoId ∈ ids,
        (vids.find? (fun v => v.video_id == videoId)).isSome = true) →
      ∀ videoId ∈ ids,
        videoId ∈ (PublicApp.startDownloads vids outcome rs ids).downloadedIds ∨
        videoId ∈ (PublicApp.startDownloads vids outcome rs ids).errorIds := by
  intro ids
  induction ids with
  | nil => intro rs _ videoId hmem; cases hmem
  | cons a l ih =>
    intro rs h videoId hmem
    rcases List.mem_cons.mp hmem with rfl | hmem2
    · have ha := h videoId (List.mem_cons_self videoId l)
      have hstep : videoId ∈ (PublicApp.runItem vids outcome rs videoId).downloadedIds ∨
          videoId ∈ (PublicApp.runItem vids outcome rs videoId).errorIds := by
        unfold PublicApp.runItem
        cases hfind : vids.find? (fun v => v.video_id == videoId) with
        | none => rw [hfind] at ha; cases ha
        | some v =>
          cases outcome videoId with
          | success => exact Or.inl (Finset.mem_insert_self _ _)
          | failure => exact Or.inr (Finset.mem_insert_self _ _)
      have hmono := startDownloads_sets_mono vids outcome l
        (PublicApp.runItem vids outcome rs videoId)
      rcases hstep with h1 | h1
      · exact Or.inl (hmono.1 h1)
      · exact Or.inr (hmono.2 h1)
    · exact ih (PublicApp.runItem vids outcome rs a)
        (fun x hx => h x (List.mem_cons_of_mem a hx)) videoId hmem2

/-- C5: in the sequential variant, over a non-empty run of ids that all
match a playlist video, after the first N items have resolved the
aggregate progress equals N divided by the total; the loop resolves
every item regardless of individual outcomes; and at the end the
completed and error tallies sum to the total and the aggregate progress
equals one. -/
theorem c5_sequential_progress (vids : List Video)
    (outcome : String → PublicApp.DlOutcome) (ids : List String)
    (d0 e0 : Finset String) (hne : ids ≠ [])
    (hfound : ∀ videoId ∈ ids,
      (vids.find? (fun v => v.video_id == videoId)).isSome = true) :
    (∀ N, N ≤ ids.length →
      PublicApp.aggProgress
        (PublicApp.startDownloads vids outcome (freshRun d0 e0) (ids.take N))
        ids.length = (N : ℚ) / (ids.length : ℚ)) ∧
    (PublicApp.startDownloads vids outcome (freshRun d0 e0) ids).completedCount +
      (PublicApp.startDownloads vids outcome (freshRun d0 e0) ids).errorCount =
      ids.length ∧
    PublicApp.aggProgress
      (PublicApp.startDownloads vids outcome (freshRun d0 e0) ids) ids.length = 1 ∧
    (∀ videoId ∈ ids,
      videoId ∈ (PublicApp.startDownloads vids outcome
        (freshRun d0 e0) ids).downloadedIds ∨
      videoId ∈ (PublicApp.startDownloads vids outcome
        (freshRun d0 e0) ids).errorIds) := by
  have hTne : (ids.length : ℚ) ≠ 0 := by
    have : ids.length ≠ 0 := by
      intro h0
      exact hne (List.length_eq_zero.mp h0)
    exact_mod_cast this
  have hfull : (PublicApp.startDownloads vids outcome
      (freshRun d0 e0) ids).completedCount +
      (PublicApp.startDownloads vids outcome (freshRun d0 e0) ids).errorCount =
      ids.length := by
    have := startDownloads_counts vids outcome ids (freshRun d0 e0) hfound
    simpa [freshRun] using this
  refine ⟨?_, hfull, ?_, ?_⟩
  · intro N hN
    have hcnt := startDownloads_counts vids outcome (ids.take N) (freshRun d0 e0)
      (fun x hx => hfound x (List.take_subset N ids hx))
    have hlen : (ids.take N).length = N := by
      rw [List.length_take]
      exact Nat.min_eq_left hN
    rw [hlen] at hcnt
    have hcnt2 : (PublicApp.startDownloads vids outcome
        (freshRun d0 e0) (ids.take N)).completedCount +
        (PublicApp.startDownloads vids outcome
          (freshRun d0 e0) (ids.take N)).errorCount = N := by
      simpa [freshRun] using hcnt
    unfold PublicApp.aggProgress
    rw [show ((PublicApp.startDownloads vids outcome (freshRun d0 e0)
        (ids.take N)).completedCount : ℚ) +
        ((PublicApp.startDownloads vids outcome (freshRun d0 e0)
          (ids.take N)).errorCount : ℚ) = (N : ℚ) by exact_mod_cast hcnt2]
  · unfold PublicApp.aggProgress
    rw [show ((PublicApp.startDownloads vids outcome
        (freshRun d0 e0) ids).completedCount : ℚ) +
        ((PublicApp.startDownloads vids outcome
          (freshRun d0 e0) ids).errorCount : ℚ) = (ids.length : ℚ) by
        exact_mod_cast hfull]
    exact div_self hTne
  · exact startDownloads_resolves vids outcome ids (freshRun d0 e0) hfound

/-- Per-item request outcome fixture: a succeeds, everything else fails. -/
def outcomeFix : String → PublicApp.DlOutcome :=
  fun videoId => if videoId = "a" then .success else .failure

/-- Witness for C5 at the two-item fixture run. -/
theorem c5_sequential_progress_witness :
    (["a", "b"] ≠ ([] : List String)) ∧
    (∀ videoId ∈ ["a", "b"],
      (([vidA, vidB]).find? (fun v => v.video_id == videoId)).isSome = true) ∧
    ((PublicApp.startDownloads [vidA, vidB] outcomeFix
        (freshRun ∅ ∅) ["a", "b"]).completedCount +
      (PublicApp.startDownloads [vidA, vidB] outcomeFix
        (freshRun ∅ ∅) ["a", "b"]).errorCount = (["a", "b"] : List String).length) :=
  ⟨by decide, by decide,
   (c5_sequential_progress [vidA, vidB] outcomeFix ["a", "b"] ∅ ∅
      (by decide) (by decide)).2.1⟩

/-! ### Select-all label vs selection size (C3) -/

lemma videoIds_length (vids : List Video) : (videoIds vids).length = vids.length :=
  List.length_map _ _

lemma pub_applyOp_inv (vids : List Video) (hne : vids ≠ [])
    (hnd : (videoIds vids).Nodup) (st : PublicApp.AppState)
    (op : PublicApp.UiOp) (hop : PublicApp.opValid vids op = true)
    (h1 : st.videos = vids)
    (h2 : st.selectedIds ⊆ (videoIds vids).toFinset)
    (h3 : st.allSelected = decide (st.selectedIds.card = vids.length))
    (h4 : st.isDownloading = false) :
    (PublicApp.applyOp st op).videos = vids ∧
    (PublicApp.applyOp st op).selectedIds ⊆ (videoIds vids).toFinset ∧
    (PublicApp.applyOp st op).allSelected =
      decide ((PublicApp.applyOp st op).selectedIds.card = vids.length) ∧
    (PublicApp.applyOp st op).isDownloading = false := by
  subst h1
  cases op with
  | toggle videoId =>
    have hcc : PublicApp.applyOp st (PublicApp.UiOp.toggle videoId) =
        PublicApp.toggleSelection st videoId := by
      show PublicApp.cardClick st videoId = _
      unfold PublicApp.cardClick
      rw [if_neg (by rw [h4]; exact Bool.false_ne_true)]
    rw [hcc]
    have hmem : videoId ∈ (videoIds st.videos).toFinset := by
      rw [List.mem_toFinset]
      exact List.elem_iff.mp hop
    refine ⟨rfl, ?_, ?_, h4⟩
    · show (if videoId ∈ st.selectedIds then st.selectedIds.erase videoId
          else insert videoId st.selectedIds) ⊆ (videoIds st.videos).toFinset
      split_ifs with hsel
      · exact Finset.Subset.trans (Finset.erase_subset _ _) h2
      · exact Finset.insert_subset_iff.mpr ⟨hmem, h2⟩
    · rfl
  | selectAll =>
    have hna : PublicApp.applyOp st PublicApp.UiOp.selectAll =
        PublicApp.selectAllClick st := rfl
    rw [hna]
    cases hall : st.allSelected with
    | true =>
      have heq : PublicApp.selectAllClick st =
          { st with allSelected := false,
                    selectedIds :=
                      st.selectedIds \ (videoIds st.videos).toFinset } := by
        unfold PublicApp.selectAllClick
        rw [if_neg (by rw [h4]; exact Bool.false_ne_true), hall]
        rfl
      rw [heq]
      have hsdiff : st.selectedIds \ (videoIds st.videos).toFinset = ∅ :=
        Finset.sdiff_eq_empty_iff_subset.mpr h2
      have hlen : st.videos.length ≠ 0 := by
        intro hx
        exact hne (List.length_eq_zero.mp hx)
      refine ⟨rfl, ?_, ?_, h4⟩
      · show st.selectedIds \ (videoIds st.videos).toFinset ⊆ _
        rw [hsdiff]
        exact Finset.empty_subset _
      · show false = decide ((st.selectedIds \
            (videoIds st.videos).toFinset).card = st.videos.length)
        rw [hsdiff, Finset.card_empty, decide_eq_false (fun hx => hlen hx.symm)]
    | false =>
      have heq : PublicApp.selectAllClick st =
          { st with allSelected := true,
                    selectedIds :=
                      st.selectedIds ∪ (videoIds st.videos).toFinset } := by
        unfold PublicApp.selectAllClick
        rw [if_neg (by rw [h4]; exact Bool.false_ne_true), hall]
        rfl
      rw [heq]
      have hunion : st.selectedIds ∪ (videoIds st.videos).toFinset =
          (videoIds st.videos).toFinset := Finset.union_eq_right.mpr h2
      refine ⟨rfl, ?_, ?_, h4⟩
      · exact Finset.union_subset h2 (Finset.Subset.refl _)
      · show true = decide ((st.selectedIds ∪
            (videoIds st.videos).toFinset).card = st.videos.length)
        rw [hunion, List.toFinset_card_of_nodup hnd, videoIds_length]
        simp

lemma pub_reach_inv (vids : List Video) (hne : vids ≠ [])
    (hnd : (videoIds vids).Nodup) :
    ∀ (ops : List PublicApp.UiOp) (st : PublicApp.AppState),
      (∀ op ∈ ops, PublicApp.opValid vids op = true) →
      st.videos = vids →
      st.selectedIds ⊆ (videoIds vids).toFinset →
      st.allSelected = decide (st.selectedIds.card = vids.length) →
      st.isDownloading = false →
      (PublicApp.reach st ops).videos = vids ∧
      (PublicApp.reach st ops).selectedIds ⊆ (videoIds vids).toFinset ∧
      (PublicApp.reach st ops).allSelected =
        decide ((PublicApp.reach st ops).selectedIds.card = vids.length) ∧
      (PublicApp.reach st ops).isDownloading = false := by
  intro ops
  induction ops with
  | nil => intro st _ h1 h2 h3 h4; exact ⟨h1, h2, h3, h4⟩
  | cons op l ih =>
    intro st hops h1 h2 h3 h4
    have hstep := pub_applyOp_inv vids hne hnd st op
      (hops op (List.mem_cons_self _ _)) h1 h2 h3 h4
    exact ih (PublicApp.applyOp st op)
      (fun x hx => hops x (List.mem_cons_of_mem _ hx))
      hstep.1 hstep.2.1 hstep.2.2.1 hstep.2.2.2

lemma pub_extract_inv (vids : List Video) (hnd : (videoIds vids).Nodup) :
    (PublicApp.applyExtract PublicApp.pageInit vids).videos = vids ∧
    (PublicApp.applyExtract PublicApp.pageInit vids).selectedIds ⊆
      (videoIds vids).toFinset ∧
    (PublicApp.applyExtract PublicApp.pageInit vids).allSelected =
      decide ((PublicApp.applyExtract PublicApp.pageInit vids).selectedIds.card
        = vids.length) ∧
    (PublicApp.applyExtract PublicApp.pageInit vids).isDownloading = false := by
  refine ⟨rfl, Finset.Subset.refl _, ?_, rfl⟩
  show true = decide ((videoIds vids).toFinset.card = vids.length)
  rw [List.toFinset_card_of_nodup hnd, videoIds_length]
  simp

lemma st_applyOp_inv (vids : List Video) (hne : vids ≠ [])
    (hnd : (videoIds vids).Nodup) (st : StaticApp.AppState)
    (op : StaticApp.UiOp) (hop : StaticApp.opValid vids op = true)
    (h1 : st.videos = vids)
    (h2 : st.selectedIds ⊆ (videoIds vids).toFinset)
    (h3 : st.allSelected = decide (st.selectedIds.card = vids.length)) :
    (StaticApp.applyOp st op).videos = vids ∧
    (StaticApp.applyOp st op).selectedIds ⊆ (videoIds vids).toFinset ∧
    (StaticApp.applyOp st op).allSelected =
      decide ((StaticApp.applyOp st op).selectedIds.card = vids.length) := by
  subst h1
  cases op with
  | toggle videoId =>
    have hmem : videoId ∈ (videoIds st.videos).toFinset := by
      rw [List.mem_toFinset]
      exact List.elem_iff.mp hop
    refine ⟨rfl, ?_, ?_⟩
    · show (if videoId ∈ st.selectedIds then st.selectedIds.erase videoId
          else insert videoId st.selectedIds) ⊆ (videoIds st.videos).toFinset
      split_ifs with hsel
      · exact Finset.Subset.trans (Finset.erase_subset _ _) h2
      · exact Finset.insert_subset_iff.mpr ⟨hmem, h2⟩
    · rfl
  | selectAll =>
    cases hall : st.allSelected with
    | true =>
      have heq : StaticApp.applyOp st StaticApp.UiOp.selectAll =
          { st with allSelected := false,
                    selectedIds :=
                      st.selectedIds \ (videoIds st.videos).toFinset } := by
        show StaticApp.selectAllClick st = _
        unfold StaticApp.selectAllClick
        rw [hall]
        rfl
      rw [heq]
      have hsdiff : st.selectedIds \ (videoIds st.videos).toFinset = ∅ :=
        Finset.sdiff_eq_empty_iff_subset.mpr h2
      have hlen : st.videos.length ≠ 0 := by
        intro hx
        exact hne (List.length_eq_zero.mp hx)
      refine ⟨rfl, ?_, ?_⟩
      · show st.selectedIds \ (videoIds st.videos).toFinset ⊆ _
        rw [hsdiff]
        exact Finset.empty_subset _
      · show false = decide ((st.selectedIds \
            (videoIds st.videos).toFinset).card = st.videos.length)
        rw [hsdiff, Finset.card_empty, decide_eq_false (fun hx => hlen hx.symm)]
    | false =>
      have heq : StaticApp.applyOp st StaticApp.UiOp.selectAll =
          { st with allSelected := true,
                    selectedIds :=
                      st.selectedIds ∪ (videoIds st.videos).toFinset } := by
        show StaticApp.selectAllClick st = _
        unfold StaticApp.selectAllClick
        rw [hall]
        rfl
      rw [heq]
      have hunion : st.selectedIds ∪ (videoIds st.videos).toFinset =
          (videoIds st.videos).toFinset := Finset.union_eq_right.mpr h2
      refine ⟨rfl, ?_, ?_⟩
      · exact Finset.union_subset h2 (Finset.Subset.refl _)
      · show true = decide ((st.selectedIds ∪
            (videoIds st.videos).toFinset).card = st.videos.length)
        rw [hunion, List.toFinset_card_of_nodup hnd, videoIds_length]
        simp

lemma st_reach_inv (vids : List Video) (hne : vids ≠ [])
    (hnd : (videoIds vids).Nodup) :
    ∀ (ops : List StaticApp.UiOp) (st : StaticApp.AppState),
      (∀ op ∈ ops, StaticApp.opValid vids op = true) →
      st.videos = vids →
      st.selectedIds ⊆ (videoIds vids).toFinset →
      st.allSelected = decide (st.selectedIds.card = vids.length) →
      (StaticApp.reach st ops).videos = vids ∧
      (StaticApp.reach st ops).selectedIds ⊆ (videoIds vids).toFinset ∧
      (StaticApp.reach st ops).allSelected =
        decide ((StaticApp.reach st ops).selectedIds.card = vids.length) := by
  intro ops
  induction ops with
  | nil => intro st _ h1 h2 h3; exact ⟨h1, h2, h3⟩
  | cons op l ih =>
    intro st hops h1 h2 h3
    have hstep := st_applyOp_inv vids hne hnd st op
      (hops op (List.mem_cons_self _ _)) h1 h2 h3
    exact ih (StaticApp.applyOp st op)
      (fun x hx => hops x (List.mem_cons_of_mem _ hx))
      hstep.1 hstep.2.1 hstep.2.2

lemma st_extract_inv (sid title : String) (vids : List Video)
    (hnd : (videoIds vids).Nodup) :
    (StaticApp.applyExtract StaticApp.pageInit sid title vids).videos = vids ∧
    (StaticApp.applyExtract StaticApp.pageInit sid title vids).selectedIds ⊆
      (videoIds vids).toFinset ∧
    (StaticApp.applyExtract StaticApp.pageInit sid title vids).allSelected =
      decide ((StaticApp.applyExtract StaticApp.pageInit
        sid title vids).selectedIds.card = vids.length) := by
  refine ⟨rfl, Finset.Subset.refl _, ?_⟩
  show true = decide ((videoIds vids).toFinset.card = vids.length)
  rw [List.toFinset_card_of_nodup hnd, videoIds_length]
  simp

/-- C3 amended: for every non-empty extracted playlist (with its unique
identifiers) and every sequence of rendered-card toggles and select-all
clicks, the select-all button label is Deselect All exactly when the
selection size equals the item count, in both variants.  (For an empty
playlist the biconditional fails: a select-all click flips the label to
Select All although the selection size, zero, still equals the count.) -/
theorem c3_label_iff_full :
    (∀ (vids : List Video) (ops : List PublicApp.UiOp),
        vids ≠ [] → (videoIds vids).Nodup →
        (∀ op ∈ ops, PublicApp.opValid vids op = true) →
        (PublicApp.selectAllLabel
            (PublicApp.reach (PublicApp.applyExtract PublicApp.pageInit vids) ops)
          = "Deselect All" ↔
        (PublicApp.reach (PublicApp.applyExtract PublicApp.pageInit vids)
            ops).selectedIds.card =
          (PublicApp.reach (PublicApp.applyExtract PublicApp.pageInit vids)
            ops).videos.length)) ∧
    (∀ (sid title : String) (vids : List Video) (ops : List StaticApp.UiOp),
        vids ≠ [] → (videoIds vids).Nodup →
        (∀ op ∈ ops, StaticApp.opValid vids op = true) →
        (StaticApp.selectAllLabel
            (StaticApp.reach
              (StaticApp.applyExtract StaticApp.pageInit sid title vids) ops)
          = "Deselect All" ↔
        (StaticApp.reach (StaticApp.applyExtract StaticApp.pageInit sid title vids)
            ops).selectedIds.card =
          (StaticApp.reach (StaticApp.applyExtract StaticApp.pageInit sid title vids)
            ops).videos.length)) := by
  constructor
  · intro vids ops hne hnd hops
    obtain ⟨e1, e2, e3, e4⟩ := pub_extract_inv vids hnd
    obtain ⟨i1, i2, i3, i4⟩ := pub_reach_inv vids hne hnd ops
      (PublicApp.applyExtract PublicApp.pageInit vids) hops e1 e2 e3 e4
    rw [i1]
    cases hall : (PublicApp.reach
        (PublicApp.applyExtract PublicApp.pageInit vids) ops).allSelected with
    | true =>
      have hcard := of_decide_eq_true (hall ▸ i3).symm
      constructor
      · intro _; exact hcard
      · intro _
        unfold PublicApp.selectAllLabel
        rw [hall]
        rfl
    | false =>
      constructor
      · intro hlab
        exfalso
        unfold PublicApp.selectAllLabel at hlab
        rw [hall] at hlab
        exact absurd hlab (by decide)
      · intro hx
        exfalso
        have : decide ((PublicApp.reach
            (PublicApp.applyExtract PublicApp.pageInit vids)
              ops).selectedIds.card = vids.length) = true := decide_eq_true hx
        rw [← i3, hall] at this
        cases this
  · intro sid title vids ops hne hnd hops
    obtain ⟨e1, e2, e3⟩ := st_extract_inv sid title vids hnd
    obtain ⟨i1, i2, i3⟩ := st_reach_inv vids hne hnd ops
      (StaticApp.applyExtract StaticApp.pageInit sid title vids) hops e1 e2 e3
    rw [i1]
    cases hall : (StaticApp.reach
        (StaticApp.applyExtract StaticApp.pageInit sid title vids)
          ops).allSelected with
    | true =>
      have hcard := of_decide_eq_true (hall ▸ i3).symm
      constructor
      · intro _; exact hcard
      · intro _
        unfold StaticApp.selectAllLabel
        rw [hall]
        rfl
    | false =>
      constructor
      · intro hlab
        exfalso
        unfold StaticApp.selectAllLabel at hlab
        rw [hall] at hlab
        exact absurd hlab (by decide)
      · intro hx
        exfalso
        have : decide ((StaticApp.reach
            (StaticApp.applyExtract StaticApp.pageInit sid title vids)
              ops).selectedIds.card = vids.length) = true := decide_eq_true hx
        rw [← i3, hall] at this
        cases this

/-- State of the sequential variant after extracting an empty playlist
and clicking the select-all button once. -/
def emptyReach : PublicApp.AppState :=
  PublicApp.reach (PublicApp.applyExtract PublicApp.pageInit [])
    [PublicApp.UiOp.selectAll]

/-- C3 fails as stated on the empty playlist: after one select-all
click the selection size still equals the total item count (both zero),
yet the label reads Select All, not Deselect All. -/
theorem c3_counterexample :
    emptyReach.selectedIds.card = emptyReach.videos.length ∧
    PublicApp.selectAllLabel emptyReach = "Select All" ∧
    PublicApp.selectAllLabel emptyReach ≠ "Deselect All" :=
  ⟨by decide, by decide, by decide⟩

/-- Witness for C3 amended at the two-item playlist with one toggle. -/
theorem c3_label_iff_full_witness :
    (([vidA, vidB] : List Video) ≠ [] ∧ (videoIds [vidA, vidB]).Nodup ∧
      (∀ op ∈ [PublicApp.UiOp.toggle "a"],
        PublicApp.opValid [vidA, vidB] op = true) ∧
      (PublicApp.selectAllLabel
          (PublicApp.reach (PublicApp.applyExtract PublicApp.pageInit [vidA, vidB])
            [PublicApp.UiOp.toggle "a"]) = "Deselect All" ↔
        (PublicApp.reach (PublicApp.applyExtract PublicApp.pageInit [vidA, vidB])
          [PublicApp.UiOp.toggle "a"]).selectedIds.card =
        (PublicApp.reach (PublicApp.applyExtract PublicApp.pageInit [vidA, vidB])
          [PublicApp.UiOp.toggle "a"]).videos.length)) ∧
    (([vidA, vidB] : List Video) ≠ [] ∧
      (∀ op ∈ [StaticApp.UiOp.selectAll],
        StaticApp.opValid [vidA, vidB] op = true) ∧
      (StaticApp.selectAllLabel
          (StaticApp.reach
            (StaticApp.applyExtract StaticApp.pageInit "sid1" "PL" [vidA, vidB])
            [StaticApp.UiOp.selectAll]) = "Deselect All" ↔
        (StaticApp.reach
          (StaticApp.applyExtract StaticApp.pageInit "sid1" "PL" [vidA, vidB])
          [StaticApp.UiOp.selectAll]).selectedIds.card =
        (StaticApp.reach
          (StaticApp.applyExtract StaticApp.pageInit "sid1" "PL" [vidA, vidB])
          [StaticApp.UiOp.selectAll]).videos.length)) :=
  ⟨⟨by decide, by decide, by decide,
    c3_label_iff_full.1 [vidA, vidB] [PublicApp.UiOp.toggle "a"]
      (by decide) (by decide) (by decide)⟩,
   ⟨by decide, by decide,
    c3_label_iff_full.2 "sid1" "PL" [vidA, vidB] [StaticApp.UiOp.selectAll]
      (by decide) (by decide) (by decide)⟩⟩

/-! ### New-playlist reset and release request (C8) -/

/-- C8: starting a new playlist empties the selection, completed and
error sets in both variants; in the push-stream variant exactly one
DELETE-session release request is issued when a session id exists and
none otherwise, and the session id is dropped. -/
theorem c8_new_playlist :
    (∀ st : StaticApp.AppState,
      (StaticApp.newPlaylistClick st).1.selectedIds = ∅ ∧
      (StaticApp.newPlaylistClick st).1.downloadedIds = ∅ ∧
      (StaticApp.newPlaylistClick st).1.errorIds = ∅ ∧
      (StaticApp.newPlaylistClick st).1.videos = [] ∧
      (StaticApp.newPlaylistClick st).1.sessionId = none ∧
      (StaticApp.newPlaylistClick st).2 =
        st.sessionId.elim []
          (fun sid => [StaticApp.Request.deleteSession sid])) ∧
    (∀ st : PublicApp.AppState, st.isDownloading = false →
      (PublicApp.newPlaylistClick st).selectedIds = ∅ ∧
      (PublicApp.newPlaylistClick st).downloadedIds = ∅ ∧
      (PublicApp.newPlaylistClick st).errorIds = ∅ ∧
      (PublicApp.newPlaylistClick st).videos = []) := by
  constructor
  · intro st
    refine ⟨rfl, rfl, rfl, rfl, rfl, ?_⟩
    cases hsid : st.sessionId with
    | none => simp [StaticApp.newPlaylistClick, hsid]
    | some sid => simp [StaticApp.newPlaylistClick, hsid]
  · intro st h
    unfold PublicApp.newPlaylistClick
    rw [if_neg (by rw [h]; exact Bool.false_ne_true)]
    exact ⟨rfl, rfl, rfl, rfl⟩

/-- Witness for C8 at the fixture states (session present and absent,
not downloading). -/
theorem c8_new_playlist_witness :
    ((StaticApp.newPlaylistClick stStateAB).2 =
        [StaticApp.Request.deleteSession "sid1"] ∧
      (StaticApp.newPlaylistClick stStateAB).1.selectedIds = ∅ ∧
      (StaticApp.newPlaylistClick stStateA).2 = []) ∧
    (pubStateA.isDownloading = false ∧
      (PublicApp.newPlaylistClick pubStateA).selectedIds = ∅ ∧
      (PublicApp.newPlaylistClick pubStateA).downloadedIds = ∅) :=
  ⟨⟨(c8_new_playlist.1 stStateAB).2.2.2.2.2,
    (c8_new_playlist.1 stStateAB).1,
    (c8_new_playlist.1 stStateA).2.2.2.2.2⟩,
   ⟨by decide,
    (c8_new_playlist.2 pubStateA (by decide)).1,
    (c8_new_playlist.2 pubStateA (by decide)).2.1⟩⟩

/-! ### Extraction atomicity on error (C10) -/

/-- C10: when the extract interaction fails — the fetch throws, the
response is non-2xx, or the body parse throws — `extractPlaylist`
leaves the whole module state unchanged in both variants, because every
state assignment sits after the ok check and the body parse; the same
holds when the url guards reject the input. -/
theorem c10_extract_atomic :
    (∀ (st : PublicApp.AppState) (url : String)
        (o : PublicApp.ExtractOutcome), o.isFailure = true →
      (PublicApp.extractPlaylist st url o).videos = st.videos ∧
      (PublicApp.extractPlaylist st url o).selectedIds = st.selectedIds ∧
      (PublicApp.extractPlaylist st url o).downloadedIds = st.downloadedIds ∧
      (PublicApp.extractPlaylist st url o).errorIds = st.errorIds ∧
      (PublicApp.extractPlaylist st url o).allSelected = st.allSelected) ∧
    (∀ (st : StaticApp.AppState) (url : String)
        (o : StaticApp.ExtractOutcome), o.isFailure = true →
      (StaticApp.extractPlaylist st url o).videos = st.videos ∧
      (StaticApp.extractPlaylist st url o).selectedIds = st.selectedIds ∧
      (StaticApp.extractPlaylist st url o).downloadedIds = st.downloadedIds ∧
      (StaticApp.extractPlaylist st url o).errorIds = st.errorIds ∧
      (StaticApp.extractPlaylist st url o).allSelected = st.allSelected ∧
      (StaticApp.extractPlaylist st url o).sessionId = st.sessionId ∧
      (StaticApp.extractPlaylist st url o).playlistTitle = st.playlistTitle) := by
  constructor
  · intro st url o h
    have hres : PublicApp.extractPlaylist st url o = st := by
      unfold PublicApp.extractPlaylist
      split_ifs with h1 h2
      · rfl
      · cases o with
        | okData title vids => cases h
        | fetchThrow => rfl
        | httpError => rfl
        | okParseThrow => rfl
      · rfl
    rw [hres]
    exact ⟨rfl, rfl, rfl, rfl, rfl⟩
  · intro st url o h
    have hres : StaticApp.extractPlaylist st url o = st := by
      unfold StaticApp.extractPlaylist
      split_ifs with h1 h2
      · rfl
      · cases o with
        | okData sid title vids => cases h
        | fetchThrow => rfl
        | httpError => rfl
        | okParseThrow => rfl
      · rfl
    rw [hres]
    exact ⟨rfl, rfl, rfl, rfl, rfl, rfl, rfl⟩

/-- Witness for C10 at a fetch failure on the fixture states. -/
theorem c10_extract_atomic_witness :
    (PublicApp.ExtractOutcome.fetchThrow.isFailure = true ∧
      (PublicApp.extractPlaylist pubStateA "https://pl"
        PublicApp.ExtractOutcome.fetchThrow).selectedIds =
        pubStateA.selectedIds) ∧
    (StaticApp.ExtractOutcome.httpError.isFailure = true ∧
      (StaticApp.extractPlaylist stStateAB "https://pl"
        StaticApp.ExtractOutcome.httpError).sessionId = stStateAB.sessionId) :=
  ⟨⟨by decide,
    (c10_extract_atomic.1 pubStateA "https://pl"
      PublicApp.ExtractOutcome.fetchThrow (by decide)).2.1⟩,
   ⟨by decide,
    (c10_extract_atomic.2 stStateAB "https://pl"
      StaticApp.ExtractOutcome.httpError (by decide)).2.2.2.2.2.1⟩⟩
